import Mathlib

/-!
Verification development for the `vt_newsletter_generator` repository.

The definitions below are a shallow embedding of the deterministic core of
the repository: the CSV loading / validation / derivation pipeline
(`src/csv_processor.py`), the HTML block composer and newsletter assembler
(`src/html_generator.py`), and the single-event renderer
(`src/app.py::generate_single_event_html` together with
`src/llm_helper.py::generate_event_description`).

Modeling conventions:
  * A pandas `DataFrame` read from CSV is a `RawTable`: a header list plus a
    list of rows, each row a list of string cells (the CSV export is text).
  * Python exceptions that the code catches locally are `Except` values;
    functions whose failures propagate return `Except` to the caller.
  * Python string operations (`strip`, `lower`, `in`, `split`, `min` of
    strings, `int(...)`) are reproduced over `List Char` with ASCII case
    semantics, which covers the repository's data (headers, statuses, dates,
    times and course names are ASCII).
  * `datetime.strptime` with the two formats used by the code
    (`%d/%m/%Y`, `%Y-%m-%d`) is reproduced including calendar validation;
    `strftime` output is reproduced with zero padding.
  * Numeric coercion `pd.to_numeric(errors="coerce").fillna(0)` is modeled
    for integer-valued cells (the ClubSpark export has integer `Classes` and
    `Active Participants` cells); a cell that does not parse becomes `0`.
  * Calls to the hosted language model are an oracle parameter: a function
    returning `Except Unit String`, where `.error` stands for a raised
    exception and `.ok` for returned text (possibly empty).
-/

namespace VT

set_option maxRecDepth 16384

/-- Python `str.isspace` members relevant to `str.strip` (ASCII whitespace:
space, tab, newline, carriage return, vertical tab, form feed). -/
def isPyWs (c : Char) : Bool := c = ' ' || (9 ≤ c.toNat && c.toNat ≤ 13)

/-- Python `str.strip()` : drop leading and trailing whitespace. -/
def pyStrip (s : String) : String :=
  let l := s.toList.dropWhile isPyWs
  String.mk ((l.reverse.dropWhile isPyWs).reverse)

/-- Python `str.lower()` (ASCII letters; the repository's data is ASCII). -/
def pyLower (s : String) : String :=
  String.mk (s.toList.map Char.toLower)

/-- Whether the needle list occurs at the head of the hay list. -/
def listLeads : List Char → List Char → Bool
  | [], _ => true
  | _ :: _, [] => false
  | a :: as, b :: bs => a = b && listLeads as bs

/-- Whether the needle list occurs contiguously anywhere in the hay list. -/
def listHas (needle : List Char) : List Char → Bool
  | [] => listLeads needle []
  | c :: rest => listLeads needle (c :: rest) || listHas needle rest

/-- Python `sub in s` for strings. -/
def strContains (s sub : String) : Bool := listHas sub.toList s.toList

/-- Split a character list on a separator character, keeping empty parts:
Python `str.split(sep)` for a one-character separator. -/
def splitOnChar (sep : Char) : List Char → List (List Char)
  | [] => [[]]
  | c :: cs =>
      let r := splitOnChar sep cs
      if c = sep then [] :: r
      else match r with
        | h :: t => (c :: h) :: t
        | [] => [[c]]

/-- Python `str.split(sep)` for a one-character separator. -/
def pySplit (s : String) (sep : Char) : List String :=
  (splitOnChar sep s.toList).map String.mk

/-- Value of a nonempty all-digit character list. -/
def digitsVal (l : List Char) : Nat :=
  l.foldl (fun a c => a * 10 + (c.toNat - 48)) 0

/-- Parse an optional integer the way Python `int(str)` does: surrounding
whitespace tolerated, optional sign, then at least one digit. -/
def pyIntOpt (s : String) : Option Int :=
  let l := (pyStrip s).toList
  let core : List Char → Option Int := fun ds =>
    if ds.length > 0 && ds.all Char.isDigit then some (Int.ofNat (digitsVal ds)) else none
  match l with
  | '-' :: rest => (core rest).map (fun n => -n)
  | '+' :: rest => core rest
  | _ => core l

/-- Model of `pd.to_numeric(col, errors="coerce").fillna(0)` on the integer
cells of the ClubSpark export: an unparsable cell becomes `0`. -/
def pyToNumericD (s : String) : Int := (pyIntOpt s).getD 0

/-- Calendar date produced by `datetime.strptime`. -/
structure PyDate where
  year : Nat
  month : Nat
  day : Nat
deriving DecidableEq, Repr

/-- Gregorian leap-year rule used by `datetime`. -/
def isLeapYear (y : Nat) : Bool := (y % 4 = 0 && y % 100 ≠ 0) || y % 400 = 0

/-- Days in a month, as validated by `datetime`. -/
def daysInMonth (y m : Nat) : Nat :=
  if m = 2 then (if isLeapYear y then 29 else 28)
  else if m = 4 || m = 6 || m = 9 || m = 11 then 30
  else 31

/-- Parse one numeric `strptime` field: between one and `maxLen` digits. -/
def parseField (s : String) (maxLen : Nat) : Option Nat :=
  let l := s.toList
  if l.length ≥ 1 && l.length ≤ maxLen && l.all Char.isDigit then some (digitsVal l) else none

/-- Validate ranges and build the date, as `datetime(year, month, day)` does. -/
def mkPyDate (y m d : Nat) : Option PyDate :=
  if 1 ≤ y && y ≤ 9999 && 1 ≤ m && m ≤ 12 && 1 ≤ d && d ≤ daysInMonth y m then
    some ⟨y, m, d⟩
  else none

/-- `datetime.strptime(s, "%d/%m/%Y")`. -/
def strptimeDMY (s : String) : Option PyDate :=
  match pySplit s '/' with
  | [d, m, y] => do
      let dn ← parseField d 2
      let mn ← parseField m 2
      let yn ← parseField y 4
      mkPyDate yn mn dn
  | _ => none

/-- `datetime.strptime(s, "%Y-%m-%d")`. -/
def strptimeYMD (s : String) : Option PyDate :=
  match pySplit s '-' with
  | [y, m, d] => do
      let yn ← parseField y 4
      let mn ← parseField m 2
      let dn ← parseField d 2
      mkPyDate yn mn dn
  | _ => none

/-- English month name used by `strftime("%B")`. -/
def monthName (m : Nat) : String :=
  if m = 1 then "January" else if m = 2 then "February" else if m = 3 then "March"
  else if m = 4 then "April" else if m = 5 then "May" else if m = 6 then "June"
  else if m = 7 then "July" else if m = 8 then "August" else if m = 9 then "September"
  else if m = 10 then "October" else if m = 11 then "November" else "December"

/-- Zero-pad a natural number to two digits (`strftime("%d")`, `%m`). -/
def pad2 (n : Nat) : String := if n < 10 then "0" ++ toString n else toString n

/-- Zero-pad a year to four digits (`strftime("%Y")`). -/
def pad4 (n : Nat) : String :=
  if n < 10 then "000" ++ toString n
  else if n < 100 then "00" ++ toString n
  else if n < 1000 then "0" ++ toString n
  else toString n

/-- `date_obj.strftime("%d %B %Y")`. -/
def strftimeLong (d : PyDate) : String :=
  pad2 d.day ++ " " ++ monthName d.month ++ " " ++ toString d.year

/-- `date_obj.strftime("%Y-%m-%dT00:00:00.000Z")`. -/
def isoInstant (d : PyDate) : String :=
  pad4 d.year ++ "-" ++ pad2 d.month ++ "-" ++ pad2 d.day ++ "T00:00:00.000Z"

/-!  Model of `src/csv_processor.py` (class `CSVProcessor`). -/

/-- `CSVProcessor.required_columns`. -/
def requiredColumns : List String :=
  ["Name", "Status", "Start Date", "Time", "Type", "Day", "Classes", "Active Participants"]

/-- Raw tabular input as parsed by `pd.read_csv`: a header row plus data rows
of string cells.  The header labels of a frame produced by `read_csv` are
pairwise distinct (duplicate labels in the file are mangled to `Name.1`,
`Name.2`, ...), so exact-label lookups hit at most one column; labels that
are distinct only by surrounding whitespace (such as `Name` and `" Name "`)
are NOT mangled and can collide once `_clean_data` strips the headers. -/
structure RawTable where
  headers : List String
  rows : List (List String)

/-- Cell of a row under a column name (first matching header position; absent
columns give the empty cell, which is only ever used for validated columns). -/
def cellOf (headers row : List String) (col : String) : String :=
  match headers.indexOf? col with
  | some i => row.getD i ""
  | none => ""

/-- `CSVProcessor._extract_venue`. -/
def extractVenue (name : String) : String :=
  let lower := pyLower name
  if strContains lower "belair" then "Belair Park"
  else if strContains lower "dulwich" then "Dulwich Park"
  else "Unknown Venue"

/-- `CSVProcessor._extract_skill_level`. -/
def extractSkillLevel (name : String) : String :=
  let lower := pyLower name
  if strContains lower "beginner" then "Beginner"
  else if strContains lower "improver" then "Improver"
  else if strContains lower "intermediate" then "Intermediate"
  else if strContains lower "advanced" then "Advanced"
  else "Unknown"

/-- `CSVProcessor._format_date`: try `%d/%m/%Y` when the string has a slash,
`%Y-%m-%d` otherwise; on failure return the original string unchanged. -/
def formatDate (dateStr : String) : String :=
  let parsed := if strContains dateStr "/" then strptimeDMY dateStr else strptimeYMD dateStr
  match parsed with
  | some d => strftimeLong d
  | none => dateStr

/-- One validated, enriched course record: the cleaned raw columns of
`_clean_data` plus the derived columns of `_add_derived_columns`. -/
structure Course where
  name : String
  status : String
  startDate : String
  time : String
  rowType : String
  day : String
  classes : Int
  activeParticipants : Int
  venue : String
  skillLevel : String
  limitedSpots : Bool
  formattedStartDate : String
  durationText : String
deriving DecidableEq, Repr

/-- Cleaning and derivation for one surviving row:
`_clean_data` strips the string columns `Name, Status, Type, Day` (the
`Start Date` and `Time` columns are not in its `string_columns` list and stay
raw) and coerces `Classes` and `Active Participants` to numbers, then
`_add_derived_columns` adds `Venue`, `Skill Level`, `Limited Spots`
(`Active Participants > 8`), `Formatted Start Date` and `Duration Text`
(`"{x} weeks" if x > 1 else "{x} week"`).  `_clean_data` also strips the
header names themselves, which cannot change the lookups of the already
validated exact required column names. -/
def deriveRow (headers row : List String) : Course :=
  let name := pyStrip (cellOf headers row "Name")
  let classes := pyToNumericD (cellOf headers row "Classes")
  let ap := pyToNumericD (cellOf headers row "Active Participants")
  let startDate := cellOf headers row "Start Date"
  { name := name
    status := pyStrip (cellOf headers row "Status")
    startDate := startDate
    time := cellOf headers row "Time"
    rowType := pyStrip (cellOf headers row "Type")
    day := pyStrip (cellOf headers row "Day")
    classes := classes
    activeParticipants := ap
    venue := extractVenue name
    skillLevel := extractSkillLevel name
    limitedSpots := decide (8 < ap)
    formattedStartDate := formatDate startDate
    durationText :=
      if 1 < classes then toString classes ++ " weeks" else toString classes ++ " week" }

/-- The fatal failures of `process_csv` (each surfaces as a `ValueError`
wrapped in the `"Error processing CSV: ..."` message): the two explicit
validation checks, and the exception raised while cleaning and deriving when
the stripped headers hold duplicate labels of a column the pipeline reads
(a pandas lookup of a duplicated label returns a frame instead of a series,
so `.str` raises `AttributeError` at csv_processor.py:59, `pd.to_numeric`
raises `TypeError` at line 65, and the single-column assignment of the
`Start Date` formatting raises at line 81). -/
inductive LoadError where
  | missingColumns (cols : List String)
  | emptyResult
  | duplicateColumns (cols : List String)
deriving DecidableEq, Repr

/-- Required columns absent from the raw header row (checked against the
untrimmed headers, in `required_columns` order). -/
def missingColumnsOf (t : RawTable) : List String :=
  requiredColumns.filter (fun c => !(t.headers.contains c))

/-- Rows whose raw (untrimmed) `Status` cell lower-cases to `"upcoming"`. -/
def upcomingRowsOf (t : RawTable) : List (List String) :=
  t.rows.filter (fun r => pyLower (cellOf t.headers r "Status") = "upcoming")

/-- The header row after `_clean_data` strips the column names
(csv_processor.py:53). -/
def strippedHeaders (t : RawTable) : List String := t.headers.map pyStrip

/-- The columns `_clean_data` and `_add_derived_columns` read: the string
columns `Name, Status, Type, Day`, the numeric columns
`Classes, Active Participants`, and `Start Date` — every required column
except `Time`, which no load-time step touches. -/
def processedColumns : List String :=
  ["Name", "Status", "Type", "Day", "Classes", "Active Participants", "Start Date"]

/-- Processed columns whose label occurs more than once among the stripped
headers: looking one of these up after the header strip yields a frame, and
the cleaning/derivation step on it raises. -/
def duplicatedProcessedColumns (t : RawTable) : List String :=
  processedColumns.filter (fun c => 2 ≤ (strippedHeaders t).count c)

/-- `CSVProcessor.process_csv`: validate the required columns against the raw
headers, filter to upcoming rows on the raw `Status` values, fail if nothing
remains, then clean and derive the surviving rows — which itself fails when
the stripped headers hold a duplicated processed column (e.g. raw headers
`Name` and `" Name "` pass validation but strip to two `Name` labels, and
`df["Name"].astype(str).str` raises).  In the success branch every processed
column's label occurs exactly once after stripping, and it is the exact raw
required name, so the exact-name lookups of `deriveRow` agree with the
program's post-strip lookups. -/
def processCsv (t : RawTable) : Except LoadError (List Course) :=
  if missingColumnsOf t ≠ [] then .error (.missingColumns (missingColumnsOf t))
  else if upcomingRowsOf t = [] then .error .emptyResult
  else if duplicatedProcessedColumns t ≠ [] then
    .error (.duplicateColumns (duplicatedProcessedColumns t))
  else .ok ((upcomingRowsOf t).map (deriveRow t.headers))

/-- Predicate of the `events` filter in `get_courses_by_type` and
`get_content_types`: lower-cased `Type` matches the regex alternation
`"event|session|drop"`, or `Classes == 1`. -/
def eventsTypePred (c : Course) : Bool :=
  strContains (pyLower c.rowType) "event" || strContains (pyLower c.rowType) "session" ||
    strContains (pyLower c.rowType) "drop" || c.classes = 1

/-- `CSVProcessor.get_courses_by_type`. -/
def getCoursesByType (courses : List Course) (contentType : String) : List Course :=
  if contentType = "adults" then courses.filter (fun c => pyLower c.rowType = "adult")
  else if contentType = "juniors" then courses.filter (fun c => pyLower c.rowType = "junior")
  else if contentType = "events" then courses.filter eventsTypePred
  else []

/-!  Python string ordering.  Python compares strings lexicographically by
code point; pandas `Series.min` and the ascending key sort of `groupby` use
this comparison.  It is modeled by an executable comparator over `List Char`
so that concrete instances evaluate inside the kernel. -/

/-- Strict lexicographic-by-code-point comparison of character lists
(Python `<` on strings). -/
def listLtChar : List Char → List Char → Bool
  | [], [] => false
  | [], _ :: _ => true
  | _ :: _, [] => false
  | a :: as, b :: bs =>
      if a.toNat < b.toNat then true
      else if b.toNat < a.toNat then false
      else listLtChar as bs

/-- Non-strict lexicographic-by-code-point comparison of character lists
(Python `<=` on strings). -/
def listLeChar : List Char → List Char → Bool
  | [], _ => true
  | _ :: _, [] => false
  | a :: as, b :: bs =>
      if a.toNat < b.toNat then true
      else if b.toNat < a.toNat then false
      else listLeChar as bs

/-- Python `a < b` on strings. -/
def pyStrLtB (a b : String) : Bool := listLtChar a.toList b.toList

/-- Python `a <= b` on strings, as a proposition. -/
def pyStrLe (a b : String) : Prop := listLeChar a.toList b.toList = true

instance : DecidableRel pyStrLe := fun a b =>
  inferInstanceAs (Decidable (listLeChar a.toList b.toList = true))

/-- The non-strict comparison is total. -/
lemma listLeChar_total : ∀ l1 l2 : List Char, listLeChar l1 l2 = true ∨ listLeChar l2 l1 = true := by
  intro l1
  induction l1 with
  | nil => intro l2; left; rfl
  | cons a as ih =>
      intro l2
      cases l2 with
      | nil => right; rfl
      | cons b bs =>
          by_cases hab : a.toNat < b.toNat
          · left
            simp [listLeChar, hab]
          · by_cases hba : b.toNat < a.toNat
            · right
              simp [listLeChar, hba]
            · rcases ih bs with h | h
              · left
                simp [listLeChar, hab, hba, h]
              · right
                simp [listLeChar, hab, hba, h]

/-- The non-strict comparison is transitive. -/
lemma listLeChar_trans : ∀ l1 l2 l3 : List Char,
    listLeChar l1 l2 = true → listLeChar l2 l3 = true → listLeChar l1 l3 = true := by
  intro l1
  induction l1 with
  | nil => intro l2 l3 _ _; rfl
  | cons a as ih =>
      intro l2 l3 h12 h23
      cases l2 with
      | nil => simp [listLeChar] at h12
      | cons b bs =>
          cases l3 with
          | nil => simp [listLeChar] at h23
          | cons c cs =>
              simp only [listLeChar] at h12 h23 ⊢
              by_cases hab : a.toNat < b.toNat
              · by_cases hbc : b.toNat < c.toNat
                · simp [Nat.lt_trans hab hbc]
                · by_cases hcb : c.toNat < b.toNat
                  · simp [hbc, hcb] at h23
                  · have hbceq : b.toNat = c.toNat :=
                      Nat.le_antisymm (Nat.le_of_not_lt hcb) (Nat.le_of_not_lt hbc)
                    simp [hbceq ▸ hab]
              · by_cases hba : b.toNat < a.toNat
                · simp [hab, hba] at h12
                · have habeq : a.toNat = b.toNat :=
                    Nat.le_antisymm (Nat.le_of_not_lt hba) (Nat.le_of_not_lt hab)
                  simp only [if_neg hab, if_neg hba] at h12
                  by_cases hbc : b.toNat < c.toNat
                  · simp [habeq ▸ hbc]
                  · by_cases hcb : c.toNat < b.toNat
                    · simp [hbc, hcb] at h23
                    · have hbceq : b.toNat = c.toNat :=
                        Nat.le_antisymm (Nat.le_of_not_lt hcb) (Nat.le_of_not_lt hbc)
                      simp only [if_neg hbc, if_neg hcb] at h23
                      have hace : a.toNat = c.toNat := habeq.trans hbceq
                      rw [hace]
                      simp [Nat.lt_irrefl, ih bs cs h12 h23]

/-- The non-strict comparison is antisymmetric. -/
lemma listLeChar_antisymm : ∀ l1 l2 : List Char,
    listLeChar l1 l2 = true → listLeChar l2 l1 = true → l1 = l2 := by
  intro l1
  induction l1 with
  | nil =>
      intro l2 _ h21
      cases l2 with
      | nil => rfl
      | cons b bs => simp [listLeChar] at h21
  | cons a as ih =>
      intro l2 h12 h21
      cases l2 with
      | nil => simp [listLeChar] at h12
      | cons b bs =>
          simp only [listLeChar] at h12 h21
          by_cases hab : a.toNat < b.toNat
          · simp [if_neg (Nat.lt_asymm hab), if_pos hab] at h21
          · by_cases hba : b.toNat < a.toNat
            · simp [hab, hba] at h12
            · have habeq : a.toNat = b.toNat :=
                Nat.le_antisymm (Nat.le_of_not_lt hba) (Nat.le_of_not_lt hab)
              have hchar : a = b := Char.ext (UInt32.toNat.inj habeq)
              simp only [if_neg hab, if_neg hba] at h12
              simp only [if_neg hba, if_neg hab] at h21
              rw [hchar, ih bs h12 h21]

/-- Non-strict holds exactly when the reversed strict fails. -/
lemma listLeChar_iff_not_lt : ∀ l1 l2 : List Char,
    listLeChar l1 l2 = true ↔ listLtChar l2 l1 = false := by
  intro l1
  induction l1 with
  | nil =>
      intro l2
      cases l2 with
      | nil => simp [listLeChar, listLtChar]
      | cons b bs => simp [listLeChar, listLtChar]
  | cons a as ih =>
      intro l2
      cases l2 with
      | nil => simp [listLeChar, listLtChar]
      | cons b bs =>
          simp only [listLeChar, listLtChar]
          by_cases hab : a.toNat < b.toNat
          · simp [hab, if_neg (Nat.lt_asymm hab)]
          · by_cases hba : b.toNat < a.toNat
            · simp [hab, hba]
            · simp [hab, hba, ih bs]

instance : IsTotal String pyStrLe := ⟨fun a b => listLeChar_total a.toList b.toList⟩

instance : IsTrans String pyStrLe :=
  ⟨fun a b c hab hbc => listLeChar_trans a.toList b.toList c.toList hab hbc⟩

instance : IsAntisymm String pyStrLe :=
  ⟨fun a b hab hba => by
    have h := listLeChar_antisymm a.toList b.toList hab hba
    exact String.ext (by simpa [String.toList] using h)⟩

/-!  Model of `src/html_generator.py` (class `HTMLGenerator`).  The optional
`llm_helper` collaborator is modeled where a claim needs it; the adults block
is modeled in its deterministic configuration (no helper), matching
`HTMLGenerator()` with `llm_helper=None`. -/

/-- `HTMLGenerator.SKILL_LEVELS` membership lookup. -/
def skillLevelId (s : String) : Option Nat :=
  if s = "Beginner" then some 1
  else if s = "Improver" then some 4
  else if s = "Intermediate" then some 2
  else if s = "Advanced" then some 3
  else none

/-- `HTMLGenerator.ADULT_BOOKING_URL`. -/
def adultBookingUrl : String := "https://clubspark.lta.org.uk/VamosTennis/Coaching/Adult"

/-- Position of a group name in `HTMLGenerator.SKILL_LEVEL_ORDER`, with the
`999` default used by the group sort key. -/
def skillKey (g : String) : Nat :=
  if g = "Beginner" then 0
  else if g = "Improver" then 1
  else if g = "Intermediate" then 2
  else if g = "Advanced" then 3
  else 999

/-- Group-sort relation of `_generate_course_list`: compare `skillKey`. -/
def keyLe (a b : String) : Prop := skillKey a ≤ skillKey b

instance : DecidableRel keyLe := fun a b => Nat.decLe (skillKey a) (skillKey b)

instance : IsTotal String keyLe := ⟨fun a b => Nat.le_total (skillKey a) (skillKey b)⟩

instance : IsTrans String keyLe := ⟨fun _ _ _ hab hbc => Nat.le_trans hab hbc⟩

/-- `HTMLGenerator._format_time`: 24-hour `HH:MM` to the hour-level 12-hour
label; any parse failure returns the input unchanged. -/
def formatTime (timeStr : String) : String :=
  if strContains timeStr ":" then
    match pySplit timeStr ':' with
    | [h, _] =>
        match pyIntOpt h with
        | some hour =>
            if 12 < hour then toString (hour - 12) ++ "pm"
            else if hour = 12 then "12pm"
            else if hour = 0 then "12am"
            else toString hour ++ "am"
        | none => timeStr
    | _ => timeStr
  else timeStr

/-- `HTMLGenerator._format_course_item`. -/
def formatCourseItem (c : Course) (includeVenue : Bool) : String :=
  let time := formatTime c.time
  let limited :=
    if 7 ≤ c.activeParticipants ∧ c.activeParticipants < 10 then
      " <strong>(Limited spots!)</strong>" else ""
  let full := if 10 ≤ c.activeParticipants then " <strong>(Full!)</strong>" else ""
  if includeVenue then
    "<li><strong>" ++ c.venue ++ "</strong> - starting " ++ c.formattedStartDate ++
      " at " ++ time ++ " (" ++ c.durationText ++ ")" ++ limited ++ full ++ "</li>"
  else
    "<li>" ++ c.formattedStartDate ++ " at " ++ time ++ " (" ++ c.durationText ++ ")" ++
      limited ++ full ++ "</li>"

/-- Ordered group names produced by the `Skill Level` branch of
`_generate_course_list`: `courses.groupby` yields the distinct group names
sorted ascending, the `Unknown` group is skipped while collecting
`sorted_groups`, and the collected names are then stable-sorted by their
`SKILL_LEVEL_ORDER` index (default `999`). -/
def sortedGroupNames (courses : List Course) : List String :=
  let keys := List.insertionSort pyStrLe ((courses.map (fun c => c.skillLevel)).dedup)
  List.insertionSort keyLe (keys.filter (fun g => g ≠ "Unknown"))

/-- The lexicographically least `Start Date` string of the frame:
`courses_df["Start Date"].min()` on an object column of strings. -/
def minStartDate (courses : List Course) : Option String :=
  match courses.map (fun c => c.startDate) with
  | [] => none
  | h :: t => some (t.foldl (fun a b => if pyStrLtB b a then b else a) h)

/-- Date parsing step of `_extract_earliest_date`: `%d/%m/%Y` when the string
has a slash, else `%Y-%m-%d`. -/
def pyParseDate (s : String) : Option PyDate :=
  if strContains s "/" then strptimeDMY s else strptimeYMD s

/-- Fixed fallback instant of `_extract_earliest_date`. -/
def fallbackInstant : String := "2025-08-03T00:00:00.000Z"

/-- `HTMLGenerator._extract_earliest_date`: fallback on an empty frame; else
take the minimum `Start Date` string of the whole frame, parse it, and format
it as an ISO instant at midnight UTC; any parse failure gives the fallback. -/
def extractEarliestDate (courses : List Course) : String :=
  match minStartDate courses with
  | none => fallbackInstant
  | some m =>
      match pyParseDate m with
      | some d => isoInstant d
      | none => fallbackInstant

/-- The button wrapper emitted by `generate_booking_button` (the triple-quoted
f-string, newlines and indentation included). -/
def buttonHtml (url text : String) : String :=
  "\n        <p style=\"text-align: center;\">\n            <a href=\"" ++ url ++
    "\" class=\"cta-button\">" ++ text ++ "</a>\n        </p>\n        "

/-- `HTMLGenerator.generate_booking_button` (a `None` skill level is the empty
string, matching Python truthiness of the `skill_level` default). -/
def generateBookingButton (skillLevel : String) (courses : List Course) : String :=
  match (if skillLevel ≠ "" then skillLevelId skillLevel else none) with
  | some levelId =>
      buttonHtml
        (adultBookingUrl ++ "?skill-level%5B%5D=" ++ toString levelId ++
          "&date-range[]=%22" ++ extractEarliestDate courses ++ "%22")
        ("Book " ++ skillLevel)
  | none => buttonHtml adultBookingUrl "Book Your Place"

/-- HTML parts emitted for one skill-level group: heading, list of the
group's items in input row order, closing tag, then the booking button built
from the whole `courses` frame (the source passes `courses`, not the group's
own rows, to `generate_booking_button`). -/
def groupParts (courses : List Course) (g : String) : List String :=
  ["<h3>" ++ g ++ "</h3>", "<ul>"] ++
    ((courses.filter (fun c => c.skillLevel = g)).map (fun c => formatCourseItem c true)) ++
    ["</ul>", generateBookingButton g courses]

/-- `HTMLGenerator._generate_course_list` with `group_by="Skill Level"` and
`include_venue=True`, without an LLM helper (no level blurbs). -/
def generateCourseListSkill (courses : List Course) : List String :=
  ((sortedGroupNames courses).map (groupParts courses)).flatten

/-- `HTMLGenerator.generate_course_block` for `block_type="adults"`:
empty input gives the empty string, else the `Adult Courses` heading followed
by the grouped course list, joined with newlines. -/
def generateCourseBlockAdults (courses : List Course) : String :=
  if courses = [] then ""
  else String.intercalate "\n" ("<h2>Adult Courses</h2>" :: generateCourseListSkill courses)

/-- Fixed outer container of `generate_newsletter_html`. -/
def newsletterWrapper : String :=
  "<div style=\"font-family: Arial, sans-serif; max-width: 600px; margin: 0 auto; width: 100%; box-sizing: border-box; text-align: left;\">"

/-- The block-collection loop of `generate_newsletter_html`: a block is
appended exactly when `block.strip()` is truthy. -/
def keptBlocks : List String → List String
  | [] => []
  | b :: bs => if pyStrip b ≠ "" then b :: keptBlocks bs else keptBlocks bs

/-- The document built before any summary handling: wrapper, kept blocks,
closing tag, joined with newlines. -/
def baseNewsletterHtml (blocks : List String) : String :=
  String.intercalate "\n" (newsletterWrapper :: keptBlocks blocks ++ ["</div>"])

/-- The summary `<div>` wrapper (triple-quoted f-string, indentation kept). -/
def summaryBlock (s : String) : String :=
  "\n        <div style=\"margin: 40px 0;\">\n          <p>" ++ s ++
    "</p>\n        </div>\n        "

/-- The rebuilt document when a summary is inserted: wrapper, `<h1>` title if
a subject was supplied, summary block, kept blocks, closing tag. -/
def withSummaryHtml (blocks : List String) (subject s : String) : String :=
  String.intercalate "\n"
    (newsletterWrapper ::
      (if subject ≠ "" then ["<h1>" ++ subject ++ "</h1>"] else []) ++
      summaryBlock s :: keptBlocks blocks ++ ["</div>"])

/-- `HTMLGenerator.generate_newsletter_html`.  `subject` and `customSummary`
are strings with `""` for Python `None` (both are falsy); the optional
`llm_helper` is an oracle from the completed HTML to the summary text, with
`.error` for a raised exception — the repository's own `LLMHelper` has no
`generate_newsletter_summary_from_html` method, so instantiating the port
with it always yields `.error` (`AttributeError`), absorbed by the
`except` clause. -/
def generateNewsletterHtml (blocks : List String) (subject : String)
    (llmPort : Option (String → Except Unit String)) (customSummary : String) : String :=
  let complete := baseNewsletterHtml blocks
  if customSummary ≠ "" then withSummaryHtml blocks subject customSummary
  else
    match llmPort with
    | none => complete
    | some f =>
        match f complete with
        | .error _ => complete
        | .ok s => if s ≠ "" then withSummaryHtml blocks subject s else complete

/-!  Model of `src/app.py::generate_single_event_html` and
`src/llm_helper.py::generate_event_description`. -/

/-- One user-authored event as assembled by the app (all keys set; Python
truthiness of `image`, `description` and `url` is emptiness of the string). -/
structure UserEvent where
  title : String
  description : String
  url : String
  image : String
deriving DecidableEq, Repr

/-- `LLMHelper.generate_event_description`: with no API key the code calls
`.get` on the string constant `FALLBACK_EVENT_DESCRIPTION`, raising
`AttributeError` (modeled as `.error ()`); with a key it returns the text the
hosted model produced for the user description and title (`_make_llm_call`
absorbs its own transport errors into the empty string, so the oracle is a
total function into `String`). -/
def generateEventDescription (hasApiKey : Bool) (oracle : String → String → String)
    (description title : String) : Except Unit String :=
  if hasApiKey then .ok (oracle description title) else .error ()

/-- The call-to-action block of `generate_single_event_html`. -/
def eventCtaBlock (url : String) : String :=
  "\n        <p style=\"text-align: center;\">\n            <a href=\"" ++ url ++
    "\" class=\"cta-button\">Book Your Spot</a>\n        </p>\n        "

/-- `app.generate_single_event_html`: heading, optional image, then the LLM
call wrapped in `try/except` — the resulting description string is appended
as a paragraph only when it is non-empty — then the optional CTA link.  The
port argument is the outcome of `llm_helper.generate_event_description` on
the event's raw description (`none` models `llm_helper=None`). -/
def generateSingleEventHtml (ev : UserEvent)
    (port : Option (String → Except Unit String)) : String :=
  let parts := ["<div style=\"margin: 40px 0;\">", "<h2>" ++ ev.title ++ "</h2>"]
  let parts := if ev.image ≠ "" then
      parts ++ ["<img src=\"" ++ ev.image ++ "\" alt=\"" ++ ev.title ++
        "\" style=\"width: 100%; max-width: 600px; margin: 10px auto; display: block;\" />"]
    else parts
  let description :=
    match port with
    | none => ""
    | some f =>
        match f ev.description with
        | .error _ => ""
        | .ok d => d
  let parts := if description ≠ "" then parts ++ ["<p>" ++ description ++ "</p>"] else parts
  let parts := if ev.url ≠ "" then parts ++ [eventCtaBlock ev.url] else parts
  String.intercalate "\n" (parts ++ ["</div>"])

/-!  Helper lemmas shared by the claim theorems. -/

/-- Unfolding `processCsv = ok`. -/
lemma processCsv_ok_elim {t : RawTable} {out : List Course}
    (h : processCsv t = Except.ok out) :
    missingColumnsOf t = [] ∧ upcomingRowsOf t ≠ [] ∧
      duplicatedProcessedColumns t = [] ∧
      out = (upcomingRowsOf t).map (deriveRow t.headers) := by
  unfold processCsv at h
  by_cases h1 : missingColumnsOf t ≠ []
  · rw [if_pos h1] at h
    exact Except.noConfusion h
  · rw [if_neg h1] at h
    by_cases h2 : upcomingRowsOf t = []
    · rw [if_pos h2] at h
      exact Except.noConfusion h
    · rw [if_neg h2] at h
      by_cases h3 : duplicatedProcessedColumns t ≠ []
      · rw [if_pos h3] at h
        exact Except.noConfusion h
      · rw [if_neg h3] at h
        exact ⟨not_not.mp h1, h2, not_not.mp h3, (Except.ok.inj h).symm⟩

/-- Every record of a successful load is the derivation of a surviving row. -/
lemma mem_processCsv {t : RawTable} {out : List Course} {c : Course}
    (h : processCsv t = Except.ok out) (hc : c ∈ out) :
    ∃ r ∈ upcomingRowsOf t, c = deriveRow t.headers r := by
  obtain ⟨-, -, -, rfl⟩ := processCsv_ok_elim h
  obtain ⟨r, hr, rfl⟩ := List.mem_map.mp hc
  exact ⟨r, hr, rfl⟩

/-- The accumulator fold used to model `Series.min` returns a list element. -/
lemma foldlMin_mem (t : List String) (h : String) :
    t.foldl (fun a b => if pyStrLtB b a then b else a) h ∈ h :: t := by
  induction t generalizing h with
  | nil => simp
  | cons b t ih =>
      have := ih (if pyStrLtB b h then b else h)
      simp only [List.foldl_cons]
      rcases List.mem_cons.mp this with heq | hmem
      · rw [heq]
        by_cases hb : pyStrLtB b h <;> simp [hb]
      · simp [List.mem_cons.mpr (Or.inr (List.mem_cons.mpr (Or.inr hmem)))]

/-- Reflexivity of the modeled string comparison. -/
lemma pyStrLe_refl (a : String) : pyStrLe a a := by
  rcases listLeChar_total a.toList a.toList with h | h <;> exact h

/-- The modeled non-strict comparison holds whenever strict does not. -/
lemma pyStrLe_of_not_lt {a b : String} (h : pyStrLtB b a = false) : pyStrLe a b :=
  (listLeChar_iff_not_lt a.toList b.toList).mpr h

/-- The modeled non-strict comparison follows from the strict one. -/
lemma pyStrLe_of_lt {a b : String} (h : pyStrLtB a b = true) : pyStrLe a b := by
  rcases listLeChar_total a.toList b.toList with hx | hx
  · exact hx
  · have hlt := (listLeChar_iff_not_lt b.toList a.toList).mp hx
    unfold pyStrLtB at h
    rw [h] at hlt
    exact Bool.noConfusion hlt

/-- The accumulator fold used to model `Series.min` is a lower bound. -/
lemma foldlMin_le (t : List String) :
    ∀ h s : String, s ∈ h :: t →
      pyStrLe (t.foldl (fun a b => if pyStrLtB b a then b else a) h) s := by
  induction t with
  | nil =>
      intro h s hs
      simp at hs
      simp [hs, pyStrLe_refl]
  | cons b t ih =>
      intro h s hs
      simp only [List.foldl_cons]
      have hacc_h : pyStrLe (if pyStrLtB b h then b else h) h := by
        by_cases hb : pyStrLtB b h = true
        · rw [if_pos hb]
          exact pyStrLe_of_lt hb
        · rw [if_neg hb]
          exact pyStrLe_refl h
      have hacc_b : pyStrLe (if pyStrLtB b h then b else h) b := by
        by_cases hb : pyStrLtB b h = true
        · rw [if_pos hb]
          exact pyStrLe_refl b
        · rw [if_neg hb]
          exact pyStrLe_of_not_lt (Bool.eq_false_iff.mpr hb)
      rcases List.mem_cons.mp hs with rfl | hs2
      · exact trans_of pyStrLe (ih _ _ (List.mem_cons_self _ _)) hacc_h
      · rcases List.mem_cons.mp hs2 with rfl | hs3
        · exact trans_of pyStrLe (ih _ _ (List.mem_cons_self _ _)) hacc_b
        · exact ih _ _ (List.mem_cons.mpr (Or.inr hs3))

/-- Membership in the rendered skill-level group sequence. -/
lemma mem_sortedGroupNames {courses : List Course} {g : String} :
    g ∈ sortedGroupNames courses ↔
      g ≠ "Unknown" ∧ g ∈ courses.map (fun c => c.skillLevel) := by
  unfold sortedGroupNames
  simp only [List.mem_insertionSort, List.mem_filter, List.mem_dedup, decide_eq_true_eq]
  tauto

/-- The kept-block loop of the assembler is exactly a filter. -/
lemma keptBlocks_eq_filter (blocks : List String) :
    keptBlocks blocks = blocks.filter (fun b => pyStrip b ≠ "") := by
  induction blocks with
  | nil => rfl
  | cons b bs ih =>
      by_cases hb : pyStrip b ≠ "" <;> simp [keptBlocks, hb, ih]

/-- The group name sequence is sorted by the `SKILL_LEVEL_ORDER` key. -/
lemma sorted_sortedGroupNames (courses : List Course) :
    List.Sorted keyLe (sortedGroupNames courses) :=
  List.sorted_insertionSort keyLe _

/-- Each skill-level group is rendered at most once. -/
lemma nodup_sortedGroupNames (courses : List Course) :
    (sortedGroupNames courses).Nodup := by
  unfold sortedGroupNames
  have h1 : (List.insertionSort pyStrLe ((courses.map (fun c => c.skillLevel)).dedup)).Nodup :=
    ((List.perm_insertionSort _ _).nodup_iff).mpr (List.nodup_dedup _)
  exact ((List.perm_insertionSort _ _).nodup_iff).mpr (h1.filter _)

/-- The rendered group sequence only depends on the multiset of input rows:
shuffling the rows leaves the sequence unchanged. -/
lemma sortedGroupNames_perm {c1 c2 : List Course} (hp : c1.Perm c2) :
    sortedGroupNames c1 = sortedGroupNames c2 := by
  unfold sortedGroupNames
  have hd : ((c1.map (fun c => c.skillLevel)).dedup).Perm
      ((c2.map (fun c => c.skillLevel)).dedup) := (hp.map _).dedup
  have hkeys : List.insertionSort pyStrLe ((c1.map (fun c => c.skillLevel)).dedup) =
      List.insertionSort pyStrLe ((c2.map (fun c => c.skillLevel)).dedup) :=
    List.eq_of_perm_of_sorted
      ((List.perm_insertionSort _ _).trans (hd.trans (List.perm_insertionSort _ _).symm))
      (List.sorted_insertionSort _ _) (List.sorted_insertionSort _ _)
  rw [hkeys]

/-!  Claim C2. -/

/-- Input table whose single upcoming row has 7 active participants. -/
def c2Table : RawTable :=
  { headers := requiredColumns
    rows := [["Belair Park Adult Beginner Course", "Upcoming", "04/08/2025", "18:00",
      "Adult", "Monday", "6", "7"]] }

/-- C2 counterexample: a record surviving load with `activeParticipants = 7`
(so `7 ≤ activeParticipants < 10`) has derived `limitedSpots = false` — the
derived `Limited Spots` column is `Active Participants > 8`, so the claimed
equivalence with `7 ≤ activeParticipants < 10` fails at 7 (and at 8). -/
theorem c2_counterexample :
    (processCsv c2Table).toOption.map
        (fun out => out.map (fun c => (c.activeParticipants, c.limitedSpots))) =
      some [((7 : Int), false)] ∧
    (7 : Int) ≤ 7 ∧ (7 : Int) < 10 := by
  exact ⟨by decide, by decide, by decide⟩

/-- C2 (amended): for every record surviving load, the derived `limitedSpots`
field is true iff `activeParticipants > 8` (no upper bound); independently of
that field, the rendered course item carries the `(Limited spots!)`
annotation when `7 ≤ activeParticipants < 10`. -/
theorem c2_limited_spots_derivation {t : RawTable} {out : List Course} {c : Course}
    (h : processCsv t = Except.ok out) (hc : c ∈ out) :
    (c.limitedSpots = true ↔ 8 < c.activeParticipants) ∧
    (7 ≤ c.activeParticipants ∧ c.activeParticipants < 10 →
      ∃ pre post, formatCourseItem c true =
        pre ++ " <strong>(Limited spots!)</strong>" ++ post) := by
  obtain ⟨r, -, rfl⟩ := mem_processCsv h hc
  constructor
  · simp [deriveRow]
  · intro hrange
    refine ⟨"<li><strong>" ++ (deriveRow t.headers r).venue ++ "</strong> - starting " ++
      (deriveRow t.headers r).formattedStartDate ++ " at " ++
      formatTime (deriveRow t.headers r).time ++ " (" ++
      (deriveRow t.headers r).durationText ++ ")",
      (if 10 ≤ (deriveRow t.headers r).activeParticipants then
        " <strong>(Full!)</strong>" else "") ++ "</li>", ?_⟩
    simp only [formatCourseItem, if_pos hrange]
    simp [String.append_assoc]

/-- C2 witness: the amended theorem applied to the concrete table above. -/
theorem c2_limited_spots_derivation_witness :
    ((deriveRow c2Table.headers (c2Table.rows.getD 0 [])).limitedSpots = true ↔
      8 < (deriveRow c2Table.headers (c2Table.rows.getD 0 [])).activeParticipants) ∧
    (7 ≤ (deriveRow c2Table.headers (c2Table.rows.getD 0 [])).activeParticipants ∧
      (deriveRow c2Table.headers (c2Table.rows.getD 0 [])).activeParticipants < 10 →
      ∃ pre post, formatCourseItem (deriveRow c2Table.headers (c2Table.rows.getD 0 [])) true =
        pre ++ " <strong>(Limited spots!)</strong>" ++ post) :=
  @c2_limited_spots_derivation c2Table
    ((upcomingRowsOf c2Table).map (deriveRow c2Table.headers))
    (deriveRow c2Table.headers (c2Table.rows.getD 0 []))
    (by rfl) (by decide)

/-!  Claim C5. -/

/-- Input table whose single upcoming row has `Classes = 0`. -/
def c5Table : RawTable :=
  { headers := requiredColumns
    rows := [["Belair Park Adult Beginner Course", "Upcoming", "04/08/2025", "18:00",
      "Adult", "Monday", "0", "5"]] }

/-- C5 counterexample: a record with `classCount = 0` has derived
`durationText = "0 week"`, not the claimed `"0 weeks"` — the code pluralizes
only for `classCount > 1`. -/
theorem c5_counterexample :
    (processCsv c5Table).toOption.map
        (fun out => out.map (fun c => (c.classes, c.durationText))) =
      some [((0 : Int), "0 week")] ∧
    "0 week" ≠ "0 weeks" := by
  exact ⟨by decide, by decide⟩

/-- C5 (amended): for every record surviving load, `durationText` is
`"{classCount} weeks"` when `classCount > 1` and `"{classCount} week"`
otherwise — so `classCount = 0` yields `"0 week"`, and only `classCount = 1`
and `classCount = 0` (and negatives) are singular. -/
theorem c5_duration_text {t : RawTable} {out : List Course} {c : Course}
    (h : processCsv t = Except.ok out) (hc : c ∈ out) :
    c.durationText =
      if 1 < c.classes then toString c.classes ++ " weeks"
      else toString c.classes ++ " week" := by
  obtain ⟨r, -, rfl⟩ := mem_processCsv h hc
  simp [deriveRow]

/-- C5 witness: the amended theorem applied to the concrete table above. -/
theorem c5_duration_text_witness :
    (deriveRow c5Table.headers (c5Table.rows.getD 0 [])).durationText =
      if 1 < (deriveRow c5Table.headers (c5Table.rows.getD 0 [])).classes then
        toString (deriveRow c5Table.headers (c5Table.rows.getD 0 [])).classes ++ " weeks"
      else toString (deriveRow c5Table.headers (c5Table.rows.getD 0 [])).classes ++ " week" :=
  @c5_duration_text c5Table
    ((upcomingRowsOf c5Table).map (deriveRow c5Table.headers))
    (deriveRow c5Table.headers (c5Table.rows.getD 0 []))
    (by rfl) (by decide)

/-!  Claim C4. -/

/-- Table whose required columns are present but padded with whitespace in
the header row (here only `" Name "`), with an otherwise valid upcoming row. -/
def c4TableHeaders : RawTable :=
  { headers := [" Name ", "Status", "Start Date", "Time", "Type", "Day", "Classes",
      "Active Participants"]
    rows := [["Belair Park Adult Beginner Course", "Upcoming", "04/08/2025", "18:00",
      "Adult", "Monday", "6", "5"]] }

/-- Table with exact headers whose row has the padded status `" Upcoming "`. -/
def c4TableStatus : RawTable :=
  { headers := requiredColumns
    rows := [["Belair Park Adult Beginner Course", " Upcoming ", "04/08/2025", "18:00",
      "Adult", "Monday", "6", "5"]] }

/-- C4 counterexample: the padded header `" Name "` makes load fail with the
missing-columns error even though stripping it would give the required name,
and the padded status `" Upcoming "` is dropped by the upcoming filter so
load fails with the empty-result error — validation and filtering run on the
untrimmed data, contradicting the claim that trimming happens first. -/
theorem c4_counterexample :
    processCsv c4TableHeaders = Except.error (LoadError.missingColumns ["Name"]) ∧
    pyStrip " Name " = "Name" ∧
    processCsv c4TableStatus = Except.error LoadError.emptyResult ∧
    pyLower (pyStrip " Upcoming ") = "upcoming" := by
  exact ⟨rfl, rfl, rfl, rfl⟩

/-- C4 (amended): load validates the required columns against the raw,
untrimmed headers and filters on the raw, untrimmed `Status` values; header
and string-column trimming happens only afterwards, on the surviving rows.
Hence a table without an exact `"Name"` header fails with the
missing-columns error, and a table whose rows all have a `Status` that does
not lower-case exactly to `"upcoming"` (for example a padded one) fails with
the empty-result error. -/
theorem c4_validation_before_trimming :
    (∀ t : RawTable, "Name" ∉ t.headers →
      processCsv t = Except.error (LoadError.missingColumns (missingColumnsOf t)) ∧
        "Name" ∈ missingColumnsOf t) ∧
    (∀ t : RawTable, missingColumnsOf t = [] →
      (∀ r ∈ t.rows, pyLower (cellOf t.headers r "Status") ≠ "upcoming") →
      processCsv t = Except.error LoadError.emptyResult) := by
  constructor
  · intro t hname
    have hmem : "Name" ∈ missingColumnsOf t := by
      unfold missingColumnsOf
      refine List.mem_filter.mpr ⟨by simp [requiredColumns], ?_⟩
      simpa using hname
    have hne : missingColumnsOf t ≠ [] := by
      intro hnil
      rw [hnil] at hmem
      exact List.not_mem_nil _ hmem
    refine ⟨?_, hmem⟩
    unfold processCsv
    rw [if_pos hne]
  · intro t hmissing hrows
    have hempty : upcomingRowsOf t = [] := by
      unfold upcomingRowsOf
      rw [List.filter_eq_nil_iff]
      intro r hr
      simpa using hrows r hr
    unfold processCsv
    rw [if_neg (by simpa using hmissing), if_pos hempty]

/-- C4 witness: the amended theorem applied to the two concrete tables. -/
theorem c4_validation_before_trimming_witness :
    (processCsv c4TableHeaders =
        Except.error (LoadError.missingColumns (missingColumnsOf c4TableHeaders)) ∧
      "Name" ∈ missingColumnsOf c4TableHeaders) ∧
    processCsv c4TableStatus = Except.error LoadError.emptyResult :=
  ⟨c4_validation_before_trimming.1 c4TableHeaders (by decide),
    c4_validation_before_trimming.2 c4TableStatus (by decide) (by decide)⟩

/-!  Claim C8. -/

/-- Table for the C8 counterexample: every required column name is present
exactly (so validation passes) and an upcoming row survives the filter, but
the tolerated extra column `" Name "` strips to a second `Name` label, so
`_clean_data`'s `df["Name"].astype(str).str` raises and load fails. -/
def c8Table : RawTable :=
  { headers := ["Name", " Name ", "Status", "Start Date", "Time", "Type", "Day", "Classes",
      "Active Participants"]
    rows := [["Belair Park Adult Beginner Course", "Extra", "Upcoming", "04/08/2025", "18:00",
      "Adult", "Monday", "6", "5"]] }

/-- C8 counterexample: a table with no required column absent and with a
surviving upcoming row on which load nevertheless fails — the stripped
headers hold a duplicate `Name` label and the cleaning step raises — so
load does not fail "exactly when" a required column is absent or zero
upcoming rows remain. -/
theorem c8_counterexample :
    missingColumnsOf c8Table = [] ∧
    upcomingRowsOf c8Table ≠ [] ∧
    pyStrip " Name " = "Name" ∧
    processCsv c8Table = Except.error (LoadError.duplicateColumns ["Name"]) := by
  exact ⟨rfl, by decide, rfl, rfl⟩

/-- C8 (amended): load fails exactly when a required column (`Name, Status,
Start Date, Time, Type, Day, Classes, Active Participants`) is absent from
the raw headers, or zero rows remain after the case-insensitive `"upcoming"`
status filter, or the whitespace-stripped headers hold a duplicate label of
a processed column (every required column except `Time`) — the last because
`_clean_data`'s header strip produces duplicate labels whose pandas lookup
then raises during cleaning or derivation; on any failure an error value
identifying the case is propagated to the caller and no partial table is
returned, and otherwise load returns the cleaned, derived table of exactly
the surviving rows. -/
theorem c8_load_contract (t : RawTable) :
    ((∃ e, processCsv t = Except.error e) ↔
      (∃ col ∈ requiredColumns, col ∉ t.headers) ∨ upcomingRowsOf t = [] ∨
        ∃ col ∈ processedColumns, 2 ≤ (strippedHeaders t).count col) ∧
    (upcomingRowsOf t = [] ↔
      ∀ r ∈ t.rows, pyLower (cellOf t.headers r "Status") ≠ "upcoming") ∧
    (∀ e, processCsv t = Except.error e →
      (e = LoadError.missingColumns (missingColumnsOf t) ∧ missingColumnsOf t ≠ [] ∧
        ∀ col ∈ missingColumnsOf t, col ∈ requiredColumns ∧ col ∉ t.headers) ∨
      e = LoadError.emptyResult ∨
      (e = LoadError.duplicateColumns (duplicatedProcessedColumns t) ∧
        duplicatedProcessedColumns t ≠ [] ∧
        ∀ col ∈ duplicatedProcessedColumns t,
          col ∈ processedColumns ∧ 2 ≤ (strippedHeaders t).count col)) ∧
    (missingColumnsOf t = [] → upcomingRowsOf t ≠ [] → duplicatedProcessedColumns t = [] →
      processCsv t = Except.ok ((upcomingRowsOf t).map (deriveRow t.headers))) := by
  have hmiss : missingColumnsOf t ≠ [] ↔ ∃ col ∈ requiredColumns, col ∉ t.headers := by
    unfold missingColumnsOf
    rw [← List.length_pos_iff_ne_nil, List.length_pos_iff_exists_mem]
    constructor
    · rintro ⟨col, hcol⟩
      have := List.mem_filter.mp hcol
      exact ⟨col, this.1, by simpa using this.2⟩
    · rintro ⟨col, hcol1, hcol2⟩
      exact ⟨col, List.mem_filter.mpr ⟨hcol1, by simpa using hcol2⟩⟩
  have hdup : duplicatedProcessedColumns t ≠ [] ↔
      ∃ col ∈ processedColumns, 2 ≤ (strippedHeaders t).count col := by
    unfold duplicatedProcessedColumns
    rw [← List.length_pos_iff_ne_nil, List.length_pos_iff_exists_mem]
    constructor
    · rintro ⟨col, hcol⟩
      have := List.mem_filter.mp hcol
      exact ⟨col, this.1, by simpa using this.2⟩
    · rintro ⟨col, hcol1, hcol2⟩
      exact ⟨col, List.mem_filter.mpr ⟨hcol1, by simpa using hcol2⟩⟩
  refine ⟨?_, ?_, ?_, ?_⟩
  · constructor
    · rintro ⟨e, he⟩
      unfold processCsv at he
      split_ifs at he with h1 h2 h3
      · exact Or.inl (hmiss.mp h1)
      · exact Or.inr (Or.inl h2)
      · exact Or.inr (Or.inr (hdup.mp h3))
    · intro hcond
      by_cases h1 : missingColumnsOf t ≠ []
      · exact ⟨LoadError.missingColumns (missingColumnsOf t), by
          unfold processCsv
          rw [if_pos h1]⟩
      · by_cases h2 : upcomingRowsOf t = []
        · exact ⟨LoadError.emptyResult, by
            unfold processCsv
            rw [if_neg h1, if_pos h2]⟩
        · have h3 : duplicatedProcessedColumns t ≠ [] := by
            rcases hcond with hc | hc | hc
            · exact absurd (hmiss.mpr hc) h1
            · exact absurd hc h2
            · exact hdup.mpr hc
          exact ⟨LoadError.duplicateColumns (duplicatedProcessedColumns t), by
            unfold processCsv
            rw [if_neg h1, if_neg h2, if_pos h3]⟩
  · unfold upcomingRowsOf
    rw [List.filter_eq_nil_iff]
    constructor
    · intro hall r hr
      simpa using hall r hr
    · intro hall r hr
      simpa using hall r hr
  · intro e he
    unfold processCsv at he
    split_ifs at he with h1 h2 h3
    · refine Or.inl ⟨(Except.error.inj he).symm, h1, ?_⟩
      intro col hcol
      have := List.mem_filter.mp hcol
      exact ⟨this.1, by simpa using this.2⟩
    · exact Or.inr (Or.inl (Except.error.inj he).symm)
    · refine Or.inr (Or.inr ⟨(Except.error.inj he).symm, h3, ?_⟩)
      intro col hcol
      have := List.mem_filter.mp hcol
      exact ⟨this.1, by simpa using this.2⟩
  · intro h1 h2 h3
    unfold processCsv
    rw [if_neg (by simpa using h1), if_neg h2, if_neg (by simpa using h3)]

/-- C8 witness: the amended load contract applied to a concrete valid table,
its success clause discharged there. -/
theorem c8_load_contract_witness :
    processCsv c2Table = Except.ok ((upcomingRowsOf c2Table).map (deriveRow c2Table.headers)) :=
  (c8_load_contract c2Table).2.2.2 (by decide) (by decide) (by decide)

/-!  Claim C6. -/

/-- C6: membership in the events/drop-ins category is exactly the union of
the type-substring rule (lower-cased `type` contains `"event"`, `"session"`
or `"drop"`) and the `classCount = 1` rule; the categories are independent
filters, so a row with type `"adult"` and one class is in both the adults
and the events outputs. -/
theorem c6_events_union (courses : List Course) (c : Course) :
    (c ∈ getCoursesByType courses "events" ↔
      c ∈ courses ∧ (strContains (pyLower c.rowType) "event" = true ∨
        strContains (pyLower c.rowType) "session" = true ∨
        strContains (pyLower c.rowType) "drop" = true ∨ c.classes = 1)) ∧
    (c ∈ courses → pyLower c.rowType = "adult" → c.classes = 1 →
      c ∈ getCoursesByType courses "adults" ∧ c ∈ getCoursesByType courses "events") := by
  have hev : getCoursesByType courses "events" = courses.filter eventsTypePred := by
    unfold getCoursesByType
    rfl
  have had : getCoursesByType courses "adults" =
      courses.filter (fun c => pyLower c.rowType = "adult") := by
    unfold getCoursesByType
    rfl
  constructor
  · rw [hev]
    rw [List.mem_filter]
    unfold eventsTypePred
    simp only [Bool.or_eq_true, decide_eq_true_eq]
    tauto
  · intro hmem htype hclasses
    constructor
    · rw [had, List.mem_filter]
      exact ⟨hmem, by simpa using htype⟩
    · rw [hev, List.mem_filter]
      refine ⟨hmem, ?_⟩
      unfold eventsTypePred
      simp [hclasses]

/-- C6 witness: a concrete one-class adult course is in both categories. -/
theorem c6_events_union_witness :
    (deriveRow c2Table.headers
        ["Belair Park Adult Beginner Course", "Upcoming", "04/08/2025", "18:00",
          "Adult", "Monday", "1", "5"] ∈
      getCoursesByType
        [deriveRow c2Table.headers
          ["Belair Park Adult Beginner Course", "Upcoming", "04/08/2025", "18:00",
            "Adult", "Monday", "1", "5"]] "adults") ∧
    (deriveRow c2Table.headers
        ["Belair Park Adult Beginner Course", "Upcoming", "04/08/2025", "18:00",
          "Adult", "Monday", "1", "5"] ∈
      getCoursesByType
        [deriveRow c2Table.headers
          ["Belair Park Adult Beginner Course", "Upcoming", "04/08/2025", "18:00",
            "Adult", "Monday", "1", "5"]] "events") :=
  (c6_events_union _ _).2 (by decide) (by decide) (by decide)

/-!  Claim C7. -/

/-- C7: the adults block groups rows by skill level, omits the `Unknown`
group entirely, renders each remaining group exactly once, orders the groups
by the fixed key (`Beginner, Improver, Intermediate, Advanced`, any
unrecognized level keyed `999` and hence after those four), keeps within each
group the original input row order (the group items are the input-order
filter of the rows), and the group sequence is unchanged by any shuffling of
the input rows. -/
theorem c7_adults_grouping (courses shuffled : List Course)
    (hne : courses ≠ []) (hperm : courses.Perm shuffled) :
    "Unknown" ∉ sortedGroupNames courses ∧
    (∀ g, g ∈ sortedGroupNames courses ↔
      g ≠ "Unknown" ∧ g ∈ courses.map (fun c => c.skillLevel)) ∧
    (sortedGroupNames courses).Nodup ∧
    List.Sorted keyLe (sortedGroupNames courses) ∧
    (skillKey "Beginner" = 0 ∧ skillKey "Improver" = 1 ∧ skillKey "Intermediate" = 2 ∧
      skillKey "Advanced" = 3 ∧
      ∀ g, g ∉ (["Beginner", "Improver", "Intermediate", "Advanced"] : List String) →
        skillKey g = 999) ∧
    sortedGroupNames shuffled = sortedGroupNames courses ∧
    generateCourseBlockAdults courses =
      String.intercalate "\n"
        ("<h2>Adult Courses</h2>" ::
          ((sortedGroupNames courses).map (groupParts courses)).flatten) ∧
    (∀ g, groupParts courses g =
      ["<h3>" ++ g ++ "</h3>", "<ul>"] ++
        ((courses.filter (fun c => c.skillLevel = g)).map
          (fun c => formatCourseItem c true)) ++
        ["</ul>", generateBookingButton g courses]) := by
  refine ⟨?_, fun g => mem_sortedGroupNames, nodup_sortedGroupNames _,
    sorted_sortedGroupNames _, ⟨rfl, rfl, rfl, rfl, ?_⟩,
    sortedGroupNames_perm hperm.symm, ?_, fun g => rfl⟩
  · intro hmem
    exact (mem_sortedGroupNames.mp hmem).1 rfl
  · intro g hg
    simp only [List.mem_cons, List.not_mem_nil, or_false, not_or] at hg
    obtain ⟨h1, h2, h3, h4⟩ := hg
    unfold skillKey
    rw [if_neg h1, if_neg h2, if_neg h3, if_neg h4]
  · unfold generateCourseBlockAdults generateCourseListSkill
    rw [if_neg hne]

/-- Concrete scrambled adults rows for the C7 witness. -/
def c7Rows : List (List String) :=
  [["Dulwich Park Adult Advanced Course", "Upcoming", "11/08/2025", "19:00", "Adult",
      "Tuesday", "6", "5"],
    ["Belair Park Adult Beginner Course", "Upcoming", "04/08/2025", "18:00", "Adult",
      "Monday", "6", "5"],
    ["Dulwich Park Adult Improver Course", "Upcoming", "05/08/2025", "19:00", "Adult",
      "Wednesday", "4", "9"]]

/-- The adults input of the C7 witness. -/
def c7Courses : List Course := c7Rows.map (deriveRow requiredColumns)

/-- The same rows shuffled, for the C7 witness. -/
def c7Shuffled : List Course := c7Rows.reverse.map (deriveRow requiredColumns)

/-- C7 witness: the grouping theorem applied to a concrete scrambled input
and one of its shuffles. -/
theorem c7_adults_grouping_witness :
    "Unknown" ∉ sortedGroupNames c7Courses ∧
    (∀ g, g ∈ sortedGroupNames c7Courses ↔
      g ≠ "Unknown" ∧ g ∈ c7Courses.map (fun c => c.skillLevel)) ∧
    (sortedGroupNames c7Courses).Nodup ∧
    List.Sorted keyLe (sortedGroupNames c7Courses) ∧
    (skillKey "Beginner" = 0 ∧ skillKey "Improver" = 1 ∧ skillKey "Intermediate" = 2 ∧
      skillKey "Advanced" = 3 ∧
      ∀ g, g ∉ (["Beginner", "Improver", "Intermediate", "Advanced"] : List String) →
        skillKey g = 999) ∧
    sortedGroupNames c7Shuffled = sortedGroupNames c7Courses ∧
    generateCourseBlockAdults c7Courses =
      String.intercalate "\n"
        ("<h2>Adult Courses</h2>" ::
          ((sortedGroupNames c7Courses).map (groupParts c7Courses)).flatten) ∧
    (∀ g, groupParts c7Courses g =
      ["<h3>" ++ g ++ "</h3>", "<ul>"] ++
        ((c7Courses.filter (fun c => c.skillLevel = g)).map
          (fun c => formatCourseItem c true)) ++
        ["</ul>", generateBookingButton g c7Courses]) :=
  c7_adults_grouping c7Courses c7Shuffled (by decide) (by decide)

/-!  Claim C1. -/

/-- Two-group adults table for the C1 counterexample: the Beginner group's
only date is `05/08/2025` (5 August), the Advanced group's is `04/09/2025`
(4 September); the lexicographically least `Start Date` string of the whole
frame is `"04/09/2025"`. -/
def c1Table : RawTable :=
  { headers := requiredColumns
    rows := [["Belair Park Adult Beginner Course", "Upcoming", "05/08/2025", "18:00",
        "Adult", "Monday", "6", "5"],
      ["Dulwich Park Adult Advanced Course", "Upcoming", "04/09/2025", "19:00",
        "Adult", "Tuesday", "6", "7"]] }

/-- The adults subset fed to the Block Composer in the C1 counterexample. -/
def c1Adults : List Course :=
  getCoursesByType ((processCsv c1Table).toOption.getD []) "adults"

/-- C1 counterexample: in the composed adults block, the Beginner group's
booking link encodes `2025-09-04` — the parse of the lexicographic minimum
`Start Date` string of the whole frame — and not the Beginner group's own
(and only, perfectly parseable) start date `05/08/2025`, whose instant
`2025-08-05T00:00:00.000Z` the claim requires. -/
theorem c1_counterexample :
    sortedGroupNames c1Adults = ["Beginner", "Advanced"] ∧
    (c1Adults.filter (fun c => c.skillLevel = "Beginner")).map (fun c => c.startDate) =
      ["05/08/2025"] ∧
    pyParseDate "05/08/2025" = some ⟨2025, 8, 5⟩ ∧
    isoInstant ⟨2025, 8, 5⟩ = "2025-08-05T00:00:00.000Z" ∧
    strContains (generateBookingButton "Beginner" c1Adults)
      "2025-08-05T00:00:00.000Z" = false ∧
    strContains (generateBookingButton "Beginner" c1Adults)
      "2025-09-04T00:00:00.000Z" = true ∧
    generateBookingButton "Beginner" c1Adults ∈ generateCourseListSkill c1Adults := by
  exact ⟨by decide, by decide, by decide, by decide, by decide, by decide, by decide⟩

/-- C1 (amended): the booking link emitted for a rendered adult skill-level
group encodes the skill-level identifier and the date obtained from the
lexicographically least `Start Date` string of the WHOLE frame passed to the
composer (not the group's own rows) — an actual lower bound of all the
frame's `Start Date` strings under string comparison — and the fixed
fallback instant is used exactly when parsing that single minimal string
fails, regardless of whether other rows would parse. -/
theorem c1_booking_link_global_min (courses : List Course) (g : String) (gid : Nat)
    (hid : skillLevelId g = some gid) (hmem : g ∈ sortedGroupNames courses) :
    generateBookingButton g courses ∈ generateCourseListSkill courses ∧
    generateBookingButton g courses =
      buttonHtml (adultBookingUrl ++ "?skill-level%5B%5D=" ++ toString gid ++
        "&date-range[]=%22" ++ extractEarliestDate courses ++ "%22") ("Book " ++ g) ∧
    ∃ m, minStartDate courses = some m ∧
      m ∈ courses.map (fun c => c.startDate) ∧
      (∀ s ∈ courses.map (fun c => c.startDate), pyStrLe m s) ∧
      ((∃ d, pyParseDate m = some d ∧ extractEarliestDate courses = isoInstant d) ∨
        (pyParseDate m = none ∧ extractEarliestDate courses = fallbackInstant)) := by
  have hgne : g ≠ "" := by
    intro h0
    rw [h0] at hid
    simp [skillLevelId] at hid
  refine ⟨?_, ?_, ?_⟩
  · unfold generateCourseListSkill
    refine List.mem_flatten.mpr ⟨groupParts courses g, List.mem_map_of_mem _ hmem, ?_⟩
    unfold groupParts
    simp
  · unfold generateBookingButton
    rw [if_pos hgne, hid]
  · have hnonempty : courses ≠ [] := by
      have hin := (mem_sortedGroupNames.mp hmem).2
      intro h0
      rw [h0] at hin
      simp at hin
    cases courses with
    | nil => exact absurd rfl hnonempty
    | cons c0 cs =>
        have hmin : minStartDate (c0 :: cs) =
            some ((cs.map (fun c => c.startDate)).foldl
              (fun a b => if pyStrLtB b a then b else a) c0.startDate) := rfl
        refine ⟨_, hmin, ?_, ?_, ?_⟩
        · simpa using foldlMin_mem (cs.map (fun c => c.startDate)) c0.startDate
        · intro s hs
          exact foldlMin_le _ _ _ (by simpa using hs)
        · unfold extractEarliestDate
          rw [hmin]
          cases hp : pyParseDate ((cs.map (fun c => c.startDate)).foldl
              (fun a b => if pyStrLtB b a then b else a) c0.startDate) with
          | none => simp [hp]
          | some d => simp [hp]

/-- C1 witness: the amended booking-link theorem applied to the concrete
two-group adults frame. -/
theorem c1_booking_link_global_min_witness :
    generateBookingButton "Beginner" c1Adults ∈ generateCourseListSkill c1Adults ∧
    generateBookingButton "Beginner" c1Adults =
      buttonHtml (adultBookingUrl ++ "?skill-level%5B%5D=" ++ toString 1 ++
        "&date-range[]=%22" ++ extractEarliestDate c1Adults ++ "%22") ("Book " ++ "Beginner") ∧
    ∃ m, minStartDate c1Adults = some m ∧
      m ∈ c1Adults.map (fun c => c.startDate) ∧
      (∀ s ∈ c1Adults.map (fun c => c.startDate), pyStrLe m s) ∧
      ((∃ d, pyParseDate m = some d ∧ extractEarliestDate c1Adults = isoInstant d) ∨
        (pyParseDate m = none ∧ extractEarliestDate c1Adults = fallbackInstant)) :=
  c1_booking_link_global_min c1Adults "Beginner" 1 (by decide) (by decide)

/-!  Claim C9. -/

/-- C9: when no summary is available — no explicit one, and the enrichment
port is absent or yields an exception or empty text — the assembled document
is exactly the wrapper with the kept fragments, built without any `<h1>`
title insertion, and is therefore independent of the supplied subject; when
a summary is available (explicit, or port-sourced with the explicit one
absent), the document is the wrapper followed by the title (if a subject was
supplied), then the summary paragraph block, then the kept fragments, in
that order. -/
theorem c9_title_summary_coupling (blocks : List String) (subject s : String)
    (f : String → Except Unit String) :
    (generateNewsletterHtml blocks subject none "" = baseNewsletterHtml blocks) ∧
    (∀ subject2, generateNewsletterHtml blocks subject none "" =
      generateNewsletterHtml blocks subject2 none "") ∧
    ((f (baseNewsletterHtml blocks) = Except.error () ∨
        f (baseNewsletterHtml blocks) = Except.ok "") →
      generateNewsletterHtml blocks subject (some f) "" = baseNewsletterHtml blocks) ∧
    (s ≠ "" → generateNewsletterHtml blocks subject none s =
      String.intercalate "\n"
        (newsletterWrapper ::
          (if subject ≠ "" then ["<h1>" ++ subject ++ "</h1>"] else []) ++
          summaryBlock s :: keptBlocks blocks ++ ["</div>"])) ∧
    (s ≠ "" → f (baseNewsletterHtml blocks) = Except.ok s →
      generateNewsletterHtml blocks subject (some f) "" = withSummaryHtml blocks subject s) := by
  refine ⟨?_, ?_, ?_, ?_, ?_⟩
  · simp [generateNewsletterHtml]
  · intro subject2
    simp [generateNewsletterHtml]
  · intro h
    rcases h with h | h <;> simp [generateNewsletterHtml, h]
  · intro hs
    simp [generateNewsletterHtml, hs, withSummaryHtml]
  · intro hs hf
    simp [generateNewsletterHtml, hf, hs]

/-- C9 witness: the coupling theorem applied to concrete fragments, subject,
summary and port. -/
theorem c9_title_summary_coupling_witness :
    (generateNewsletterHtml ["<p>x</p>"] "Subj" none "" = baseNewsletterHtml ["<p>x</p>"]) ∧
    generateNewsletterHtml ["<p>x</p>"] "Subj" none "Hello" =
      String.intercalate "\n"
        (newsletterWrapper ::
          (if ("Subj" : String) ≠ "" then ["<h1>" ++ "Subj" ++ "</h1>"] else []) ++
          summaryBlock "Hello" :: keptBlocks ["<p>x</p>"] ++ ["</div>"]) ∧
    generateNewsletterHtml ["<p>x</p>"] "Subj"
        (some (fun _ => Except.error ())) "" = baseNewsletterHtml ["<p>x</p>"] :=
  ⟨(c9_title_summary_coupling ["<p>x</p>"] "Subj" "Hello" (fun _ => Except.error ())).1,
    (c9_title_summary_coupling ["<p>x</p>"] "Subj" "Hello" (fun _ => Except.error ())).2.2.2.1
      (by decide),
    (c9_title_summary_coupling ["<p>x</p>"] "Subj" "Hello" (fun _ => Except.error ())).2.2.1
      (Or.inl rfl)⟩

/-!  Claim C10. -/

/-- C10: the assembler itself keeps exactly the fragments that still contain
a non-whitespace character after Python `strip`, in input order, inside the
fixed wrapper container; assembling only blank fragments yields the bare
wrapper (the container line and its closing tag alone). -/
theorem c10_blank_fragments_dropped (blocks : List String) :
    baseNewsletterHtml blocks =
      String.intercalate "\n"
        (newsletterWrapper :: blocks.filter (fun b => pyStrip b ≠ "") ++ ["</div>"]) ∧
    generateNewsletterHtml blocks "" none "" = baseNewsletterHtml blocks ∧
    ((∀ b ∈ blocks, pyStrip b = "") →
      baseNewsletterHtml blocks = newsletterWrapper ++ "\n" ++ "</div>") := by
  refine ⟨?_, ?_, ?_⟩
  · rw [baseNewsletterHtml, keptBlocks_eq_filter]
  · simp [generateNewsletterHtml]
  · intro hall
    have hkept : keptBlocks blocks = [] := by
      rw [keptBlocks_eq_filter, List.filter_eq_nil_iff]
      intro b hb
      simp [hall b hb]
    rw [baseNewsletterHtml, hkept]
    rfl

/-- C10 witness: the filtering theorem applied to a list of only blank
fragments, instantiating the bare-wrapper consequence. -/
theorem c10_blank_fragments_dropped_witness :
    baseNewsletterHtml ["  ", "\n\t"] =
      String.intercalate "\n"
        (newsletterWrapper :: (["  ", "\n\t"] : List String).filter (fun b => pyStrip b ≠ "") ++
          ["</div>"]) ∧
    baseNewsletterHtml ["  ", "\n\t"] = newsletterWrapper ++ "\n" ++ "</div>" :=
  ⟨(c10_blank_fragments_dropped ["  ", "\n\t"]).1,
    (c10_blank_fragments_dropped ["  ", "\n\t"]).2.2 (by decide)⟩

/-!  Claim C3. -/

/-- Concrete user-authored event for the C3 counterexample. -/
def c3Event : UserEvent :=
  { title := "August Social Tournament"
    description := "Come solo or with a partner!"
    url := "https://example.org/book"
    image := "" }

/-- C3 counterexample: with a port in place whose call raises (exactly what
the repository's own helper does without an API key), the rendered fragment
contains no descriptive paragraph at all — in particular it does not contain
the raw user description `"Come solo or with a partner!"` that the claim
requires verbatim — although the render itself completes. -/
theorem c3_counterexample :
    generateSingleEventHtml c3Event (some (fun _ => Except.error ())) =
      "<div style=\"margin: 40px 0;\">" ++ "\n" ++
        "<h2>August Social Tournament</h2>" ++ "\n" ++
        eventCtaBlock "https://example.org/book" ++ "\n" ++ "</div>" ∧
    strContains (generateSingleEventHtml c3Event (some (fun _ => Except.error ())))
      "Come solo or with a partner!" = false ∧
    generateSingleEventHtml c3Event none =
      generateSingleEventHtml c3Event (some (fun _ => Except.error ())) := by
  exact ⟨by decide, by decide, by decide⟩

/-- C3 (amended): when the enrichment port yields nothing for a
user-authored event — it is absent, raises, or returns empty text — the
rendered fragment simply omits the descriptive paragraph (the raw
user-supplied description is NOT substituted), and rendering completes
exactly as with no port at all; the repository's helper without an API key
raises (its fallback path calls `.get` on a string constant), which the call
site absorbs; when the port does return non-empty text, that text is the
descriptive paragraph. -/
theorem c3_enrichment_fallback (ev : UserEvent) (f : String → Except Unit String)
    (h : f ev.description = Except.error () ∨ f ev.description = Except.ok "") :
    generateSingleEventHtml ev (some f) = generateSingleEventHtml ev none ∧
    (∀ oracle d t, generateEventDescription false oracle d t = Except.error ()) ∧
    generateSingleEventHtml ev none =
      String.intercalate "\n"
        ((["<div style=\"margin: 40px 0;\">", "<h2>" ++ ev.title ++ "</h2>"] ++
          (if ev.image ≠ "" then
            ["<img src=\"" ++ ev.image ++ "\" alt=\"" ++ ev.title ++
              "\" style=\"width: 100%; max-width: 600px; margin: 10px auto; display: block;\" />"]
          else []) ++
          (if ev.url ≠ "" then [eventCtaBlock ev.url] else [])) ++ ["</div>"]) ∧
    (∀ d, d ≠ "" → f ev.description = Except.ok d →
      generateSingleEventHtml ev (some f) =
        String.intercalate "\n"
          ((["<div style=\"margin: 40px 0;\">", "<h2>" ++ ev.title ++ "</h2>"] ++
            (if ev.image ≠ "" then
              ["<img src=\"" ++ ev.image ++ "\" alt=\"" ++ ev.title ++
                "\" style=\"width: 100%; max-width: 600px; margin: 10px auto; display: block;\" />"]
            else []) ++
            ["<p>" ++ d ++ "</p>"] ++
            (if ev.url ≠ "" then [eventCtaBlock ev.url] else [])) ++ ["</div>"])) := by
  refine ⟨?_, fun oracle d t => rfl, ?_, ?_⟩
  · rcases h with h | h <;> simp [generateSingleEventHtml, h]
  · by_cases himg : ev.image ≠ "" <;> by_cases hurl : ev.url ≠ "" <;>
      simp [generateSingleEventHtml, himg, hurl]
  · intro d hd hf
    by_cases himg : ev.image ≠ "" <;> by_cases hurl : ev.url ≠ "" <;>
      simp [generateSingleEventHtml, himg, hurl, hf, hd]

/-- C3 witness: the fallback theorem applied to the concrete event and the
always-raising port. -/
theorem c3_enrichment_fallback_witness :
    generateSingleEventHtml c3Event (some (fun _ => Except.error ())) =
      generateSingleEventHtml c3Event none ∧
    generateSingleEventHtml c3Event none =
      String.intercalate "\n"
        ((["<div style=\"margin: 40px 0;\">", "<h2>" ++ c3Event.title ++ "</h2>"] ++
          (if c3Event.image ≠ "" then
            ["<img src=\"" ++ c3Event.image ++ "\" alt=\"" ++ c3Event.title ++
              "\" style=\"width: 100%; max-width: 600px; margin: 10px auto; display: block;\" />"]
          else []) ++
          (if c3Event.url ≠ "" then [eventCtaBlock c3Event.url] else [])) ++ ["</div>"]) :=
  ⟨(c3_enrichment_fallback c3Event (fun _ => Except.error ()) (Or.inl rfl)).1,
    (c3_enrichment_fallback c3Event (fun _ => Except.error ()) (Or.inl rfl)).2.2.1⟩

end VT
